import Mathlib

/-!
Verification of the QuantData monitoring dashboard (`src/streamlit_app.py`).

The program fetches three remote CSV tables (an equity series and two
position snapshots), derives drawdown and normalized-equity columns, maps a
signed side indicator to a categorical label, and reduces the equity series
to scalar summary metrics.  We embed the data-processing core shallowly:

* a pandas `DataFrame` is a list of named columns of cells;
* floats are modelled as rationals (all arithmetic the program performs on
  the inputs of interest is exact; division is total in both worlds — pandas
  float division never raises, and `ℚ` division by zero yields the junk
  value `0` where IEEE yields `inf`/`NaN`);
* the fetch+parse stage (`requests.get`, `raise_for_status`, `pd.read_csv`)
  is an input of type `Except PyError DataFrame`: the claims only concern
  what the body does with its outcome;
* Python exceptions are the `Except PyError` monad, and the blanket
  `try/except` of each loader catches every error into `none`;
* `st.error(...)` followed by `return None` in the missing-column checks is
  the `StageResult.missingCol` constructor carrying the column name;
* `PyError.validationError` is a constructor the program never produces; it
  exists so that spec-level statements about `ValidationError(...)` can be
  written down and compared with what the code actually does.
-/

namespace QuantData

/-- A cell of a parsed CSV table: integer, float (as `ℚ`), string,
timestamp, or missing value (pandas `NaN`/`NaT` for non-numeric columns). -/
inductive Cell : Type where
  | i (n : ℤ)
  | q (x : ℚ)
  | s (v : String)
  | t (v : ℤ)
  | null
  deriving DecidableEq, Repr

/-- A pandas DataFrame: ordered list of named columns. -/
structure DataFrame : Type where
  cols : List (String × List Cell)
  deriving DecidableEq, Repr

/-- Python exception kinds that can arise in the two loaders.
`validationError` is never produced by the code; it is the spec's
`ValidationError(tag, value)` taxonomy, included so claims mentioning it can
be stated. -/
inductive PyError : Type where
  | httpError
  | parseError
  | typeError
  | indexError
  | keyError
  | validationError (tag : String) (val : Option Cell)
  deriving DecidableEq, Repr

/-- `df[c]`: first column named `c`, if any. -/
def lookupCol (df : DataFrame) (c : String) : Option (List Cell) :=
  (df.cols.find? (fun p => p.1 = c)).map (fun p => p.2)

/-- `c in df.columns`. -/
def hasCol (df : DataFrame) (c : String) : Bool :=
  (lookupCol df c).isSome

/-- `df[c]` after membership has been checked (defaults to `[]`, unreached). -/
def getColD (df : DataFrame) (c : String) : List Cell :=
  (lookupCol df c).getD []

/-- `df[c] = v`: pandas column assignment replaces an existing column of
that name, otherwise appends a new one. -/
def setCol (df : DataFrame) (c : String) (v : List Cell) : DataFrame :=
  if hasCol df c then
    ⟨df.cols.map (fun p => if p.1 = c then (c, v) else p)⟩
  else
    ⟨df.cols ++ [(c, v)]⟩

/-- Numeric value of a cell, if it has one. -/
def cellQ : Cell → Option ℚ
  | .i n => some (n : ℚ)
  | .q x => some x
  | _ => none

/-- Numeric values of a whole column; `none` when any cell is non-numeric
(pandas would raise `TypeError` on arithmetic over such an object column). -/
def colQ : List Cell → Option (List ℚ)
  | [] => some []
  | c :: cs =>
    match cellQ c, colQ cs with
    | some x, some xs => some (x :: xs)
    | _, _ => none

/-- Cumulative maximum continued from a running maximum `m`. -/
def cummaxFrom (m : ℚ) : List ℚ → List ℚ
  | [] => []
  | x :: xs => max m x :: cummaxFrom (max m x) xs

/-- pandas `Series.cummax()`: running maximum including the current row. -/
def cummax : List ℚ → List ℚ
  | [] => []
  | x :: xs => cummaxFrom x (x :: xs)

/-- `calculate_drawdown` (src lines 24–29):
`(equity_series - running_max) / running_max * 100`. -/
def calculate_drawdown (equity_series : List ℚ) : List ℚ :=
  List.zipWith (fun x m => (x - m) / m * 100) equity_series (cummax equity_series)

/-- Outcome of a loader body before the blanket `except`: either a produced
DataFrame, or an `st.error`-and-`return None` on the first missing required
column (carrying the column name shown in the message). -/
inductive StageResult : Type where
  | good (df : DataFrame)
  | missingCol (c : String)
  deriving DecidableEq, Repr

/-- Python dict lookup `{-1: 空, 1: 多}` key test: `side == v` with numeric
equality (Python hashes `1` and `1.0` alike). -/
def isIntVal : Cell → ℤ → Bool
  | .i n, m => n = m
  | .q x, m => x = (m : ℚ)
  | _, _ => false

/-- `Series.map({-1: '空', 1: '多'})` applied to one cell: unmapped values
become missing (`NaN`), pandas `map` with a dict is a partial lookup. -/
def sideMap (c : Cell) : Cell :=
  if isIntVal c 1 then .s "多"
  else if isIntVal c (-1) then .s "空"
  else .null

/-- Body of `load_position_data` (src lines 34–56) inside the `try`, given
the outcome of `requests.get` + `raise_for_status` + `read_csv`:
check required columns in order, project the three columns, rename them to
币种/方向/仓位, map 方向 through the side dict. -/
def load_position_try (input : Except PyError DataFrame) :
    Except PyError StageResult := do
  let data ← input
  if hasCol data "symbol" = false then return .missingCol "symbol"
  else if hasCol data "side" = false then return .missingCol "side"
  else if hasCol data "pos_u" = false then return .missingCol "pos_u"
  else
    return .good ⟨[("币种", getColD data "symbol"),
                   ("方向", (getColD data "side").map sideMap),
                   ("仓位", getColD data "pos_u")]⟩

/-- Public `load_position_data`: the blanket `except` (src lines 57–59)
turns any exception into `st.error` + `None`; a missing-column check also
returns `None`. -/
def load_position_data (input : Except PyError DataFrame) : Option DataFrame :=
  match load_position_try input with
  | .ok (.good df) => some df
  | .ok (.missingCol _) => none
  | .error _ => none

/-- Body of `load_data` (src lines 64–90) inside the `try`: column checks
for `time` and `账户总净值` in that order, then the drawdown column is
assigned, then `iloc[0]` (raising `IndexError` on an empty table) and the
normalized-equity column.  Numeric conversion of the equity column is
hoisted: pandas would raise `TypeError` inside the arithmetic if the column
held non-numeric cells. -/
def load_data_try (input : Except PyError DataFrame) :
    Except PyError StageResult := do
  let data ← input
  if hasCol data "time" = false then return .missingCol "time"
  else if hasCol data "账户总净值" = false then return .missingCol "账户总净值"
  else
    match colQ (getColD data "账户总净值") with
    | none => throw .typeError
    | some eq =>
      let data1 := setCol data "drawdown" ((calculate_drawdown eq).map Cell.q)
      match eq.head? with
      | none => throw .indexError
      | some first =>
        let data2 := setCol data1 "归一化净值"
          ((eq.map (fun x => x / first)).map Cell.q)
        return .good data2

/-- Public `load_data`: blanket `except` (src lines 91–93) into `None`. -/
def load_data (input : Except PyError DataFrame) : Option DataFrame :=
  match load_data_try input with
  | .ok (.good df) => some df
  | .ok (.missingCol _) => none
  | .error _ => none

/-- The five scalar metrics of the display block (src lines 162–166). -/
structure Summary : Type where
  current_capital : ℚ
  max_capital : ℚ
  min_capital : ℚ
  current_dd : ℚ
  max_dd : ℚ
  deriving DecidableEq, Repr

/-- `Series.iloc[-1]`: last element, `IndexError` when empty. -/
def iloc_last (l : List ℚ) : Except PyError ℚ :=
  match l.getLast? with
  | some v => .ok v
  | none => .error .indexError

/-- `Series.max()`: `none` on an empty series (pandas yields `NaN`). -/
def seriesMax : List ℚ → Option ℚ
  | [] => none
  | x :: xs => some (xs.foldl max x)

/-- `Series.min()`: `none` on an empty series (pandas yields `NaN`). -/
def seriesMin : List ℚ → Option ℚ
  | [] => none
  | x :: xs => some (xs.foldl min x)

/-- The metrics block (src lines 162–166), reading the processed frame:
`current_capital = iloc[-1]`, `max_capital = max()`, `min_capital = min()`,
`current_dd = drawdown.iloc[-1]`, `max_dd = drawdown.min()`. -/
def metricsBlock (df : DataFrame) : Except PyError Summary := do
  let eqC ← match lookupCol df "账户总净值" with
    | some c => pure c
    | none => throw .keyError
  let eq ← match colQ eqC with
    | some v => pure v
    | none => throw .typeError
  let ddC ← match lookupCol df "drawdown" with
    | some c => pure c
    | none => throw .keyError
  let dd ← match colQ ddC with
    | some v => pure v
    | none => throw .typeError
  let current_capital ← iloc_last eq
  let max_capital := (seriesMax eq).getD 0
  let min_capital := (seriesMin eq).getD 0
  let current_dd ← iloc_last dd
  let max_dd := (seriesMin dd).getD 0
  return ⟨current_capital, max_capital, min_capital, current_dd, max_dd⟩

/-- Modelled from the spec: the cache behind `@st.cache_data(ttl=1200)` is
streamlit library code, not part of src/. Per §4.3 a cache entry is
`{key, value, computed_at, ttl}`; note the loaders return `None` on failure
rather than raising, so the stored value type `T` covers failed outcomes. -/
structure CacheState (T : Type) : Type where
  entries : List (String × Nat × T)

/-- Modelled from the spec: first stored entry for a key, if any. -/
def lookupEntry {T : Type} (st : CacheState T) (k : String) : Option (Nat × T) :=
  (st.entries.find? (fun p => p.1 = k)).map (fun p => p.2)

/-- Modelled from the spec: an entry is fresh while `now - computed_at < ttl`. -/
def isFresh {T : Type} (st : CacheState T) (k : String) (now ttl : Nat) : Bool :=
  match lookupEntry st k with
  | some (t0, _) => now - t0 < ttl
  | none => false

/-- Modelled from the spec (§4.3): `get_or_compute` returns the cached value
while the entry is fresh; on a miss or an expired entry it invokes `compute`
exactly once and stores whichever outcome was produced.  The `Bool` of the
result records whether `compute` was invoked. -/
def get_or_compute {T : Type} (st : CacheState T) (key : String)
    (now ttl : Nat) (compute : Unit → T) : T × CacheState T × Bool :=
  match lookupEntry st key with
  | some (t0, v) =>
    if now - t0 < ttl then (v, st, false)
    else (compute (), ⟨(key, now, compute ()) :: st.entries⟩, true)
  | none => (compute (), ⟨(key, now, compute ()) :: st.entries⟩, true)

/-! ### Helper lemmas -/

theorem lookupCol_isSome_hasCol (df : DataFrame) (c : String) (l : List Cell)
    (h : lookupCol df c = some l) : hasCol df c = true := by
  simp [hasCol, h]

theorem getColD_of_lookup (df : DataFrame) (c : String) (l : List Cell)
    (h : lookupCol df c = some l) : getColD df c = l := by
  simp [getColD, h]

theorem colQ_map_q (l : List ℚ) : colQ (l.map Cell.q) = some l := by
  induction l with
  | nil => rfl
  | cons x xs ih => simp [colQ, cellQ, ih]

theorem find?_map_replace (c : String) (v : List Cell)
    (l : List (String × List Cell)) :
    (l.map (fun p => if p.1 = c then (c, v) else p)).find?
        (fun p => p.1 = c)
      = (l.find? (fun p => p.1 = c)).map (fun _ => (c, v)) := by
  induction l with
  | nil => rfl
  | cons p ps ih =>
    by_cases hp : p.1 = c
    · simp [List.find?, hp]
    · simp [List.find?, hp, ih]

theorem find?_append_of_none {α : Type} (t : α → Bool) (l l2 : List α)
    (h : l.find? t = none) : (l ++ l2).find? t = l2.find? t := by
  induction l with
  | nil => rfl
  | cons p ps ih =>
    rw [List.find?_cons] at h
    rcases hd : (t p) with _ | _
    · rw [hd] at h
      simp only [List.cons_append, List.find?_cons, hd]
      exact ih h
    · rw [hd] at h
      exact absurd h (by simp)

theorem find?_append_of_some {α : Type} (t : α → Bool) (l l2 : List α)
    (p : α) (h : l.find? t = some p) : (l ++ l2).find? t = some p := by
  induction l with
  | nil => simp [List.find?] at h
  | cons q qs ih =>
    rw [List.find?_cons] at h
    rcases hd : (t q) with _ | _
    · rw [hd] at h
      simp only [List.cons_append, List.find?_cons, hd]
      exact ih h
    · rw [hd] at h
      simp only [List.cons_append, List.find?_cons, hd]
      exact h

theorem lookupCol_setCol_self (df : DataFrame) (c : String) (v : List Cell) :
    lookupCol (setCol df c v) c = some v := by
  unfold setCol
  rcases hf : df.cols.find? (fun p => p.1 = c) with _ | p
  · have hb : hasCol df c = false := by simp [hasCol, lookupCol, hf]
    simp only [hb, Bool.false_eq_true, if_false]
    unfold lookupCol
    rw [find?_append_of_none _ _ _ hf]
    simp [List.find?]
  · have hb : hasCol df c = true := by simp [hasCol, lookupCol, hf]
    simp only [hb, if_true]
    unfold lookupCol
    rw [find?_map_replace, hf]
    rfl

theorem find?_map_replace_other (c c' : String) (v : List Cell)
    (hne : c ≠ c') (l : List (String × List Cell)) :
    (l.map (fun p => if p.1 = c' then (c', v) else p)).find?
        (fun p => p.1 = c)
      = l.find? (fun p => p.1 = c) := by
  induction l with
  | nil => rfl
  | cons p ps ih =>
    by_cases hp : p.1 = c'
    · have hpc : ¬ p.1 = c := by rw [hp]; exact fun hc => hne hc.symm
      simp [List.find?, hp, hpc, Ne.symm hne, ih]
    · by_cases hc : p.1 = c
      · simp [List.find?, hp, hc, hne]
      · simp [List.find?, hp, hc, ih]

theorem lookupCol_setCol_other (df : DataFrame) (c c' : String) (v : List Cell)
    (hne : c ≠ c') : lookupCol (setCol df c' v) c = lookupCol df c := by
  unfold setCol
  by_cases h : hasCol df c' = true
  · simp only [h, if_true]
    unfold lookupCol
    rw [find?_map_replace_other c c' v hne]
  · have hb : hasCol df c' = false := by
      rcases hx : hasCol df c' with _ | _
      · rfl
      · exact absurd hx h
    simp only [hb, Bool.false_eq_true, if_false]
    unfold lookupCol
    rcases hf : df.cols.find? (fun p => p.1 = c) with _ | p
    · rw [find?_append_of_none _ _ _ hf, hf]
      simp [List.find?, Ne.symm hne]
    · rw [find?_append_of_some _ _ _ _ hf, hf]

theorem cummaxFrom_length (m : ℚ) (l : List ℚ) :
    (cummaxFrom m l).length = l.length := by
  induction l generalizing m with
  | nil => rfl
  | cons x xs ih => simp [cummaxFrom, ih]

theorem cummax_length (l : List ℚ) : (cummax l).length = l.length := by
  cases l with
  | nil => rfl
  | cons x xs => simp [cummax, cummaxFrom, cummaxFrom_length]

theorem calculate_drawdown_length (l : List ℚ) :
    (calculate_drawdown l).length = l.length := by
  simp [calculate_drawdown, List.length_zipWith, cummax_length]

theorem zipWith_dd_nonpos (l : List ℚ) (m : ℚ) (hm : 0 < m) :
    ∀ d ∈ List.zipWith (fun x r => (x - r) / r * 100) l (cummaxFrom m l),
      d ≤ 0 := by
  induction l generalizing m with
  | nil => intro d hd; simp at hd
  | cons x xs ih =>
    intro d hd
    simp only [cummaxFrom, List.zipWith_cons_cons, List.mem_cons] at hd
    rcases hd with hd | hd
    · subst hd
      have hmx : 0 < max m x := lt_of_lt_of_le hm (le_max_left m x)
      have h1 : (x - max m x) / max m x ≤ 0 :=
        div_nonpos_of_nonpos_of_nonneg (by simp) hmx.le
      nlinarith
    · exact ih (max m x) (lt_of_lt_of_le hm (le_max_left m x)) d hd

theorem drawdown_nonpos_of_pos_head (x : ℚ) (xs : List ℚ) (hx : 0 < x) :
    ∀ d ∈ calculate_drawdown (x :: xs), d ≤ 0 := by
  intro d hd
  unfold calculate_drawdown cummax at hd
  exact zipWith_dd_nonpos (x :: xs) x hx d hd

theorem foldl_max_mem (l : List ℚ) (x : ℚ) :
    l.foldl max x = x ∨ l.foldl max x ∈ l := by
  induction l generalizing x with
  | nil => exact Or.inl rfl
  | cons y ys ih =>
    rw [List.foldl_cons]
    rcases ih (max x y) with h | h
    · rcases max_choice x y with hm | hm
      · exact Or.inl (by rw [h, hm])
      · exact Or.inr (by rw [h, hm]; exact List.mem_cons_self y ys)
    · exact Or.inr (List.mem_cons_of_mem y h)

theorem le_foldl_max (l : List ℚ) (x : ℚ) :
    x ≤ l.foldl max x ∧ ∀ y ∈ l, y ≤ l.foldl max x := by
  induction l generalizing x with
  | nil => exact ⟨le_refl x, by intro y hy; simp at hy⟩
  | cons z zs ih =>
    rw [List.foldl_cons]
    obtain ⟨h1, h2⟩ := ih (max x z)
    refine ⟨le_trans (le_max_left x z) h1, ?_⟩
    intro y hy
    rcases List.mem_cons.mp hy with hy | hy
    · exact le_trans (hy ▸ le_max_right x z) h1
    · exact h2 y hy

theorem foldl_min_mem (l : List ℚ) (x : ℚ) :
    l.foldl min x = x ∨ l.foldl min x ∈ l := by
  induction l generalizing x with
  | nil => exact Or.inl rfl
  | cons y ys ih =>
    rw [List.foldl_cons]
    rcases ih (min x y) with h | h
    · rcases min_choice x y with hm | hm
      · exact Or.inl (by rw [h, hm])
      · exact Or.inr (by rw [h, hm]; exact List.mem_cons_self y ys)
    · exact Or.inr (List.mem_cons_of_mem y h)

theorem foldl_min_le (l : List ℚ) (x : ℚ) :
    l.foldl min x ≤ x ∧ ∀ y ∈ l, l.foldl min x ≤ y := by
  induction l generalizing x with
  | nil => exact ⟨le_refl x, by intro y hy; simp at hy⟩
  | cons z zs ih =>
    rw [List.foldl_cons]
    obtain ⟨h1, h2⟩ := ih (min x z)
    refine ⟨le_trans h1 (min_le_left x z), ?_⟩
    intro y hy
    rcases List.mem_cons.mp hy with hy | hy
    · exact le_trans h1 (hy ▸ min_le_right x z)
    · exact h2 y hy

theorem load_position_try_good (tbl : DataFrame) (sy sd pu : List Cell)
    (h1 : lookupCol tbl "symbol" = some sy)
    (h2 : lookupCol tbl "side" = some sd)
    (h3 : lookupCol tbl "pos_u" = some pu) :
    load_position_try (.ok tbl)
      = .ok (.good ⟨[("币种", sy), ("方向", sd.map sideMap), ("仓位", pu)]⟩) := by
  simp [load_position_try, bind, Except.bind, pure, Except.pure,
    lookupCol_isSome_hasCol tbl _ _ h1, lookupCol_isSome_hasCol tbl _ _ h2,
    lookupCol_isSome_hasCol tbl _ _ h3,
    getColD_of_lookup tbl _ _ h1, getColD_of_lookup tbl _ _ h2,
    getColD_of_lookup tbl _ _ h3]

theorem load_data_try_good (tbl : DataFrame) (cells : List Cell)
    (x : ℚ) (xs : List ℚ)
    (ht : hasCol tbl "time" = true)
    (hc : lookupCol tbl "账户总净值" = some cells)
    (hq : colQ cells = some (x :: xs)) :
    load_data_try (.ok tbl)
      = .ok (.good (setCol
          (setCol tbl "drawdown" ((calculate_drawdown (x :: xs)).map Cell.q))
          "归一化净值" (((x :: xs).map (fun v => v / x)).map Cell.q))) := by
  simp [load_data_try, bind, Except.bind, pure, Except.pure, ht,
    lookupCol_isSome_hasCol tbl _ _ hc, getColD_of_lookup tbl _ _ hc, hq]

theorem load_data_try_empty (tbl : DataFrame)
    (ht : hasCol tbl "time" = true)
    (hc : lookupCol tbl "账户总净值" = some []) :
    load_data_try (.ok tbl) = .error .indexError := by
  simp [load_data_try, bind, Except.bind, pure, Except.pure, ht,
    lookupCol_isSome_hasCol tbl _ _ hc, getColD_of_lookup tbl _ _ hc, colQ,
    throw, throwThe, MonadExceptOf.throw]

/-! ### Claims -/

/-- C1, counterexample.  A position row with `side = 2` is not rejected:
`load_position_data` succeeds and the label cell is missing (`NaN`), because
pandas `Series.map({-1: 空, 1: 多})` is a partial dict lookup.  In
particular the body does not fail with `ValidationError("invalid_side", 2)`. -/
theorem c1_counterexample :
    load_position_try (.ok ⟨[("symbol", [Cell.s "BTC"]), ("side", [Cell.i 2]),
        ("pos_u", [Cell.q 5])]⟩)
      = .ok (.good ⟨[("币种", [Cell.s "BTC"]), ("方向", [Cell.null]),
          ("仓位", [Cell.q 5])]⟩) ∧
    load_position_try (.ok ⟨[("symbol", [Cell.s "BTC"]), ("side", [Cell.i 2]),
        ("pos_u", [Cell.q 5])]⟩)
      ≠ .error (.validationError "invalid_side" (some (Cell.i 2))) ∧
    load_position_data (.ok ⟨[("symbol", [Cell.s "BTC"]), ("side", [Cell.i 2]),
        ("pos_u", [Cell.q 5])]⟩)
      = some ⟨[("币种", [Cell.s "BTC"]), ("方向", [Cell.null]),
          ("仓位", [Cell.q 5])]⟩ := by
  refine ⟨?_, ?_, ?_⟩
  · simp [load_position_try, bind, Except.bind, pure, Except.pure, hasCol,
      lookupCol, getColD, List.find?, sideMap, isIntVal]
  · simp [load_position_try, bind, Except.bind, pure, Except.pure, hasCol,
      lookupCol, getColD, List.find?, sideMap, isIntVal]
  · simp [load_position_data, load_position_try, bind, Except.bind, pure,
      Except.pure, hasCol, lookupCol, getColD, List.find?, sideMap, isIntVal]

/-- C1, amended.  For every position table containing the required columns,
`load_position_data` succeeds; the label column is the side column mapped
through the fixed dict: `+1 ↦ 多` (Long), `-1 ↦ 空` (Short), and every other
side value yields a missing label (`NaN`) in a retained row — no
`ValidationError` is raised. -/
theorem c1_side_mapping (tbl : DataFrame) (sy sd pu : List Cell)
    (h1 : lookupCol tbl "symbol" = some sy)
    (h2 : lookupCol tbl "side" = some sd)
    (h3 : lookupCol tbl "pos_u" = some pu) :
    (∃ out, load_position_data (.ok tbl) = some out ∧
      lookupCol out "方向" = some (sd.map sideMap)) ∧
    sideMap (Cell.i 1) = Cell.s "多" ∧
    sideMap (Cell.i (-1)) = Cell.s "空" ∧
    ∀ c, isIntVal c 1 = false → isIntVal c (-1) = false →
      sideMap c = Cell.null := by
  refine ⟨⟨⟨[("币种", sy), ("方向", sd.map sideMap), ("仓位", pu)]⟩, ?_, ?_⟩,
    rfl, rfl, ?_⟩
  · simp [load_position_data, load_position_try_good tbl sy sd pu h1 h2 h3]
  · simp [lookupCol, List.find?]
  · intro c hc1 hc2
    simp [sideMap, hc1, hc2]

/-- C1 witness. -/
theorem c1_side_mapping_witness :
    (∃ out, load_position_data (.ok ⟨[("symbol", [Cell.s "BTC", Cell.s "ETH"]),
        ("side", [Cell.i 1, Cell.i 2]), ("pos_u", [Cell.q 3, Cell.q 4])]⟩)
        = some out ∧
      lookupCol out "方向" = some ([Cell.i 1, Cell.i 2].map sideMap)) ∧
    sideMap (Cell.i 1) = Cell.s "多" ∧
    sideMap (Cell.i (-1)) = Cell.s "空" ∧
    (∀ c, isIntVal c 1 = false → isIntVal c (-1) = false →
      sideMap c = Cell.null) :=
  c1_side_mapping ⟨[("symbol", [Cell.s "BTC", Cell.s "ETH"]),
      ("side", [Cell.i 1, Cell.i 2]), ("pos_u", [Cell.q 3, Cell.q 4])]⟩
    [Cell.s "BTC", Cell.s "ETH"] [Cell.i 1, Cell.i 2] [Cell.q 3, Cell.q 4]
    (by simp [lookupCol, List.find?]) (by simp [lookupCol, List.find?])
    (by simp [lookupCol, List.find?])

/-- C10, confirmed.  For every position table containing `symbol`, `side`
and `pos_u`, `load_position_data` returns a table whose 仓位 (exposure)
column is the `pos_u` column unchanged and whose 币种 column is the `symbol`
column unchanged (same rows, same order); the label column has exactly one
entry per input row, and a row whose side value is neither `+1` nor `-1` is
retained with a missing label rather than removed. -/
theorem c10_frame (tbl : DataFrame) (sy sd pu : List Cell)
    (h1 : lookupCol tbl "symbol" = some sy)
    (h2 : lookupCol tbl "side" = some sd)
    (h3 : lookupCol tbl "pos_u" = some pu) :
    ∃ out, load_position_data (.ok tbl) = some out ∧
      lookupCol out "币种" = some sy ∧
      lookupCol out "仓位" = some pu ∧
      ∃ lab, lookupCol out "方向" = some lab ∧
        lab.length = sd.length ∧
        ∀ (i : Nat) (c : Cell), sd[i]? = some c → isIntVal c 1 = false →
          isIntVal c (-1) = false → lab[i]? = some Cell.null := by
  refine ⟨⟨[("币种", sy), ("方向", sd.map sideMap), ("仓位", pu)]⟩, ?_, ?_, ?_,
    sd.map sideMap, ?_, by simp, ?_⟩
  · simp [load_position_data, load_position_try_good tbl sy sd pu h1 h2 h3]
  · simp [lookupCol, List.find?]
  · simp [lookupCol, List.find?]
  · simp [lookupCol, List.find?]
  · intro i c hi hc1 hc2
    rw [List.getElem?_map, hi]
    simp [sideMap, hc1, hc2]

/-- C10 witness. -/
theorem c10_frame_witness :
    ∃ out, load_position_data (.ok ⟨[("symbol", [Cell.s "BTC"]),
        ("side", [Cell.i 2]), ("pos_u", [Cell.q 5]), ("extra", [Cell.i 9])]⟩)
        = some out ∧
      lookupCol out "币种" = some [Cell.s "BTC"] ∧
      lookupCol out "仓位" = some [Cell.q 5] ∧
      ∃ lab, lookupCol out "方向" = some lab ∧
        lab.length = [Cell.i 2].length ∧
        ∀ (i : Nat) (c : Cell), [Cell.i 2][i]? = some c → isIntVal c 1 = false →
          isIntVal c (-1) = false → lab[i]? = some Cell.null :=
  c10_frame ⟨[("symbol", [Cell.s "BTC"]), ("side", [Cell.i 2]),
      ("pos_u", [Cell.q 5]), ("extra", [Cell.i 9])]⟩
    [Cell.s "BTC"] [Cell.i 2] [Cell.q 5]
    (by simp [lookupCol, List.find?]) (by simp [lookupCol, List.find?])
    (by simp [lookupCol, List.find?])

/-- C2, counterexample.  On an equity table with zero rows the body fails
with the `IndexError` raised by `总净值.iloc[0]` (there is no explicit empty
check), not with `ValidationError("empty_series")`. -/
theorem c2_counterexample :
    load_data_try (.ok ⟨[("time", []), ("账户总净值", [])]⟩)
      = .error .indexError ∧
    load_data_try (.ok ⟨[("time", []), ("账户总净值", [])]⟩)
      ≠ .error (.validationError "empty_series" none) ∧
    load_data (.ok ⟨[("time", []), ("账户总净值", [])]⟩) = none := by
  have h : load_data_try (.ok ⟨[("time", []), ("账户总净值", [])]⟩)
      = .error .indexError := by
    simp [load_data_try, bind, Except.bind, pure, Except.pure, hasCol,
      lookupCol, getColD, List.find?, colQ, throw, throwThe,
      MonadExceptOf.throw]
  exact ⟨h, by rw [h]; simp, by simp [load_data, h]⟩

/-- C2, amended.  For every equity table with zero rows (required columns
present), `load_data` fails and never returns a zero-length success: the
`iloc[0]` access raises `IndexError`, the blanket `except` catches it, and
the public call returns `None`.  The failure is not an explicit
`ValidationError("empty_series")` — no such check exists in the code. -/
theorem c2_empty_fails (tbl : DataFrame)
    (ht : hasCol tbl "time" = true)
    (hc : lookupCol tbl "账户总净值" = some []) :
    load_data_try (.ok tbl) = .error .indexError ∧
    load_data (.ok tbl) = none := by
  have h := load_data_try_empty tbl ht hc
  exact ⟨h, by simp [load_data, h]⟩

/-- C2 witness. -/
theorem c2_empty_fails_witness :
    load_data_try (.ok ⟨[("time", []), ("账户总净值", []), ("other", [])]⟩)
      = .error .indexError ∧
    load_data (.ok ⟨[("time", []), ("账户总净值", []), ("other", [])]⟩)
      = none :=
  c2_empty_fails ⟨[("time", []), ("账户总净值", []), ("other", [])]⟩
    (by simp [hasCol, lookupCol, List.find?])
    (by simp [lookupCol, List.find?])

/-- C3, counterexample.  On a non-empty equity table whose first
total-equity value is exactly `0`, `load_data` succeeds — float division in
pandas never raises, so no `ValidationError("zero_reference")` is produced.
(In the program the normalized column holds `NaN`/`inf` here; the model's
total `ℚ` division writes the junk value `0` in those cells.  Success versus
failure, which is what the claim asserts, coincides.) -/
theorem c3_counterexample :
    load_data_try (.ok ⟨[("time", [Cell.t 0, Cell.t 1]),
        ("账户总净值", [Cell.q 0, Cell.q 5])]⟩)
      = .ok (.good ⟨[("time", [Cell.t 0, Cell.t 1]),
          ("账户总净值", [Cell.q 0, Cell.q 5]),
          ("drawdown", [Cell.q 0, Cell.q 0]),
          ("归一化净值", [Cell.q 0, Cell.q 0])]⟩) ∧
    load_data_try (.ok ⟨[("time", [Cell.t 0, Cell.t 1]),
        ("账户总净值", [Cell.q 0, Cell.q 5])]⟩)
      ≠ .error (.validationError "zero_reference" none) := by
  have h : load_data_try (.ok ⟨[("time", [Cell.t 0, Cell.t 1]),
      ("账户总净值", [Cell.q 0, Cell.q 5])]⟩)
      = .ok (.good ⟨[("time", [Cell.t 0, Cell.t 1]),
          ("账户总净值", [Cell.q 0, Cell.q 5]),
          ("drawdown", [Cell.q 0, Cell.q 0]),
          ("归一化净值", [Cell.q 0, Cell.q 0])]⟩) := by
    simp [load_data_try, bind, Except.bind, pure, Except.pure, hasCol,
      lookupCol, getColD, List.find?, colQ, cellQ, setCol,
      calculate_drawdown, cummax, cummaxFrom, max_def]
  exact ⟨h, by rw [h]; simp⟩

/-- C3, amended.  `load_data` performs no zero-reference check: for every
non-empty equity table (required columns present, numeric equity column)
whose first total-equity value is exactly `0`, processing succeeds and
returns a table; in the program the normalized-equity cells are silently
`inf`/`NaN`. -/
theorem c3_zero_reference (tbl : DataFrame) (cells : List Cell) (xs : List ℚ)
    (ht : hasCol tbl "time" = true)
    (hc : lookupCol tbl "账户总净值" = some cells)
    (hq : colQ cells = some (0 :: xs)) :
    ∃ df, load_data_try (.ok tbl) = .ok (.good df) ∧
      load_data (.ok tbl) = some df := by
  have h := load_data_try_good tbl cells 0 xs ht hc hq
  exact ⟨_, h, by simp [load_data, h]⟩

/-- C3 witness. -/
theorem c3_zero_reference_witness :
    ∃ df, load_data_try (.ok ⟨[("time", [Cell.t 0, Cell.t 1]),
        ("账户总净值", [Cell.q 0, Cell.q 5])]⟩) = .ok (.good df) ∧
      load_data (.ok ⟨[("time", [Cell.t 0, Cell.t 1]),
        ("账户总净值", [Cell.q 0, Cell.q 5])]⟩) = some df :=
  c3_zero_reference ⟨[("time", [Cell.t 0, Cell.t 1]),
      ("账户总净值", [Cell.q 0, Cell.q 5])]⟩ [Cell.q 0, Cell.q 5] [5]
    (by simp [hasCol, lookupCol, List.find?])
    (by simp [lookupCol, List.find?])
    (by simp [colQ, cellQ])

/-- C4, counterexample.  The claim fails on series with non-positive
values, which processing accepts: the table with equity `[-5, -10]` is
accepted and its derived drawdown column contains `+100`.  (All arithmetic
here is exact in IEEE doubles as well.) -/
theorem c4_counterexample :
    load_data (.ok ⟨[("time", [Cell.t 0, Cell.t 1]),
        ("账户总净值", [Cell.q (-5), Cell.q (-10)])]⟩)
      = some ⟨[("time", [Cell.t 0, Cell.t 1]),
          ("账户总净值", [Cell.q (-5), Cell.q (-10)]),
          ("drawdown", [Cell.q 0, Cell.q 100]),
          ("归一化净值", [Cell.q 1, Cell.q 2])]⟩ ∧
    calculate_drawdown [-5, -10] = [0, 100] ∧
    ¬ ((100 : ℚ) ≤ 0) := by
  refine ⟨?_, ?_, by norm_num⟩
  · simp [load_data, load_data_try, bind, Except.bind, pure, Except.pure,
      hasCol, lookupCol, getColD, List.find?, colQ, cellQ, setCol,
      calculate_drawdown, cummax, cummaxFrom, max_def]
    norm_num
  · simp [calculate_drawdown, cummax, cummaxFrom, max_def]
    norm_num

/-- C4, amended.  For every equity table accepted by processing whose first
total-equity value is positive, every entry of the derived drawdown column
`(total_equity - running_max) / running_max * 100` is `≤ 0` (the running
maximum is then a positive upper bound at every row). -/
theorem c4_drawdown_nonpos (tbl : DataFrame) (cells : List Cell)
    (x : ℚ) (xs : List ℚ)
    (ht : hasCol tbl "time" = true)
    (hc : lookupCol tbl "账户总净值" = some cells)
    (hq : colQ cells = some (x :: xs))
    (hx : 0 < x) :
    ∃ df, load_data (.ok tbl) = some df ∧
      lookupCol df "drawdown"
        = some ((calculate_drawdown (x :: xs)).map Cell.q) ∧
      ∀ d ∈ calculate_drawdown (x :: xs), d ≤ 0 := by
  have h := load_data_try_good tbl cells x xs ht hc hq
  refine ⟨setCol (setCol tbl "drawdown" ((calculate_drawdown (x :: xs)).map Cell.q))
      "归一化净值" (((x :: xs).map (fun v => v / x)).map Cell.q),
    ?_, ?_, drawdown_nonpos_of_pos_head x xs hx⟩
  · simp [load_data, h]
  · rw [lookupCol_setCol_other _ _ _ _ (by decide)]
    exact lookupCol_setCol_self _ _ _

/-- C4 witness. -/
theorem c4_drawdown_nonpos_witness :
    ∃ df, load_data (.ok ⟨[("time", [Cell.t 0, Cell.t 1, Cell.t 2]),
        ("账户总净值", [Cell.q 100, Cell.q 110, Cell.q 90])]⟩) = some df ∧
      lookupCol df "drawdown"
        = some ((calculate_drawdown (100 :: [110, 90])).map Cell.q) ∧
      ∀ d ∈ calculate_drawdown (100 :: [110, 90]), d ≤ 0 :=
  c4_drawdown_nonpos ⟨[("time", [Cell.t 0, Cell.t 1, Cell.t 2]),
      ("账户总净值", [Cell.q 100, Cell.q 110, Cell.q 90])]⟩
    [Cell.q 100, Cell.q 110, Cell.q 90] 100 [110, 90]
    (by simp [hasCol, lookupCol, List.find?])
    (by simp [lookupCol, List.find?])
    (by simp [colQ, cellQ])
    (by norm_num)

/-- C5, confirmed against the spec-modelled cache layer (§4.3): starting
from any state in which `key` has no fresh entry, the first call invokes
`compute` (flag `true`) and stores whichever outcome was produced — failed
outcomes included, since the loaders return their failures as values; a
second call within the TTL window returns the identical result without
invoking `compute` (flag `false`) and leaves the cache unchanged, so
`compute` runs at most once across the two calls. -/
theorem c5_cache (T : Type) (st : CacheState T) (key : String)
    (now1 now2 ttl : Nat) (compute : Unit → T)
    (hmiss : isFresh st key now1 ttl = false)
    (hwin : now2 - now1 < ttl) :
    get_or_compute st key now1 ttl compute
      = (compute (), ⟨(key, now1, compute ()) :: st.entries⟩, true) ∧
    get_or_compute ⟨(key, now1, compute ()) :: st.entries⟩ key now2 ttl compute
      = (compute (), ⟨(key, now1, compute ()) :: st.entries⟩, false) := by
  constructor
  · unfold get_or_compute
    unfold isFresh at hmiss
    rcases hl : lookupEntry st key with _ | ⟨t0, v⟩
    · rfl
    · rw [hl] at hmiss
      simp only [decide_eq_false_iff_not] at hmiss
      simp [hmiss]
  · have hl2 : lookupEntry ⟨(key, now1, compute ()) :: st.entries⟩ key
        = some (now1, compute ()) := by
      simp [lookupEntry, List.find?]
    unfold get_or_compute
    rw [hl2]
    simp [hwin]

/-- C5 witness: a failed pipeline outcome (`none`) is cached on the first
call and returned unchanged, without recomputation, 600 s into the 1200 s
TTL window. -/
theorem c5_cache_witness :
    get_or_compute (⟨[]⟩ : CacheState (Option Nat)) "equity" 0 1200
        (fun _ => none)
      = (none, ⟨[("equity", 0, none)]⟩, true) ∧
    get_or_compute (⟨[("equity", 0, none)]⟩ : CacheState (Option Nat))
        "equity" 600 1200 (fun _ => none)
      = (none, ⟨[("equity", 0, none)]⟩, false) :=
  c5_cache (Option Nat) ⟨[]⟩ "equity" 0 600 1200 (fun _ => none)
    (by rfl) (by norm_num)

/-- C6, confirmed.  End-to-end on the table `[(t0,100), (t1,110), (t2,90)]`:
the running maximum is `[100, 110, 110]`, the derived columns are
`drawdown = [0, 0, -200/11]` (≈ -18.18) and normalized equity
`[1, 1.1, 0.9]`, and the metrics block reports current equity 90,
max equity 110, min equity 90 and max drawdown `-200/11`, which is within
0.01 of -18.18. -/
theorem c6_end_to_end :
    load_data (.ok ⟨[("time", [Cell.t 0, Cell.t 1, Cell.t 2]),
        ("账户总净值", [Cell.q 100, Cell.q 110, Cell.q 90])]⟩)
      = some ⟨[("time", [Cell.t 0, Cell.t 1, Cell.t 2]),
          ("账户总净值", [Cell.q 100, Cell.q 110, Cell.q 90]),
          ("drawdown", [Cell.q 0, Cell.q 0, Cell.q (-200/11)]),
          ("归一化净值", [Cell.q 1, Cell.q (11/10), Cell.q (9/10)])]⟩ ∧
    cummax [100, 110, 90] = [100, 110, 110] ∧
    metricsBlock ⟨[("time", [Cell.t 0, Cell.t 1, Cell.t 2]),
          ("账户总净值", [Cell.q 100, Cell.q 110, Cell.q 90]),
          ("drawdown", [Cell.q 0, Cell.q 0, Cell.q (-200/11)]),
          ("归一化净值", [Cell.q 1, Cell.q (11/10), Cell.q (9/10)])]⟩
      = .ok ⟨90, 110, 90, -200/11, -200/11⟩ ∧
    |(-200/11 : ℚ) - (-1818/100)| < 1/100 := by
  refine ⟨?_, ?_, ?_, ?_⟩
  · simp [load_data, load_data_try, bind, Except.bind, pure, Except.pure,
      hasCol, lookupCol, getColD, List.find?, colQ, cellQ, setCol,
      calculate_drawdown, cummax, cummaxFrom, max_def]
    norm_num
  · simp [cummax, cummaxFrom, max_def]
    norm_num
  · simp [metricsBlock, lookupCol, List.find?, colQ, cellQ, bind,
      Except.bind, pure, Except.pure, iloc_last, seriesMax, seriesMin,
      List.getLast?, max_def, min_def]
    norm_num
  · rw [abs_lt]
    constructor <;> norm_num

/-- C8, confirmed.  A table lacking a required column is rejected with the
first missing column in the declared scan order: `symbol`, `side`, `pos_u`
for the position loader (the loop of src lines 41–45) and `time`,
`账户总净值` for the equity loader (the checks of src lines 77–82); the
body returns the missing-column error state for any otherwise well-formed
table. -/
theorem c8_missing_column (tbl : DataFrame) :
    (hasCol tbl "symbol" = false →
      load_position_try (.ok tbl) = .ok (.missingCol "symbol")) ∧
    (hasCol tbl "symbol" = true → hasCol tbl "side" = false →
      load_position_try (.ok tbl) = .ok (.missingCol "side")) ∧
    (hasCol tbl "symbol" = true → hasCol tbl "side" = true →
      hasCol tbl "pos_u" = false →
      load_position_try (.ok tbl) = .ok (.missingCol "pos_u")) ∧
    (hasCol tbl "time" = false →
      load_data_try (.ok tbl) = .ok (.missingCol "time")) ∧
    (hasCol tbl "time" = true → hasCol tbl "账户总净值" = false →
      load_data_try (.ok tbl) = .ok (.missingCol "账户总净值")) := by
  refine ⟨?_, ?_, ?_, ?_, ?_⟩
  · intro h1
    simp [load_position_try, bind, Except.bind, pure, Except.pure, h1]
  · intro h1 h2
    simp [load_position_try, bind, Except.bind, pure, Except.pure, h1, h2]
  · intro h1 h2 h3
    simp [load_position_try, bind, Except.bind, pure, Except.pure, h1, h2, h3]
  · intro h1
    simp [load_data_try, bind, Except.bind, pure, Except.pure, h1]
  · intro h1 h2
    simp [load_data_try, bind, Except.bind, pure, Except.pure, h1, h2]

/-- C8 witness. -/
theorem c8_missing_column_witness :
    load_position_try (.ok (⟨[]⟩ : DataFrame)) = .ok (.missingCol "symbol") ∧
    load_data_try (.ok (⟨[]⟩ : DataFrame)) = .ok (.missingCol "time") :=
  ⟨(c8_missing_column ⟨[]⟩).1 (by rfl),
   (c8_missing_column ⟨[]⟩).2.2.2.1 (by rfl)⟩

/-- C9, confirmed.  Both public loaders are total: every fetch/parse
failure (network error, non-success HTTP status, malformed bytes — any
raised `PyError`) is absorbed by the blanket `except` into `None`, and a
parsed table with a missing required column, an empty equity column or a
non-numeric equity column likewise yields `None`; no exception reaches the
caller. -/
theorem c9_total (e : PyError) (tbl : DataFrame) :
    load_data (.error e) = none ∧
    load_position_data (.error e) = none ∧
    (hasCol tbl "time" = false → load_data (.ok tbl) = none) ∧
    (hasCol tbl "symbol" = false → load_position_data (.ok tbl) = none) ∧
    (lookupCol tbl "账户总净值" = some [] → load_data (.ok tbl) = none) ∧
    (∀ cells, lookupCol tbl "账户总净值" = some cells → colQ cells = none →
      load_data (.ok tbl) = none) := by
  refine ⟨?_, ?_, ?_, ?_, ?_, ?_⟩
  · simp [load_data, load_data_try, bind, Except.bind]
  · simp [load_position_data, load_position_try, bind, Except.bind]
  · intro h
    simp [load_data, load_data_try, bind, Except.bind, pure, Except.pure, h]
  · intro h
    simp [load_position_data, load_position_try, bind, Except.bind, pure,
      Except.pure, h]
  · intro hc
    rcases ht : hasCol tbl "time" with _ | _
    · simp [load_data, load_data_try, bind, Except.bind, pure, Except.pure, ht]
    · simp [load_data, load_data_try_empty tbl ht hc]
  · intro cells hc hq
    rcases ht : hasCol tbl "time" with _ | _
    · simp [load_data, load_data_try, bind, Except.bind, pure, Except.pure, ht]
    · simp [load_data, load_data_try, bind, Except.bind, pure, Except.pure,
        ht, lookupCol_isSome_hasCol tbl _ _ hc, getColD_of_lookup tbl _ _ hc,
        hq, throw, throwThe, MonadExceptOf.throw]

/-- C9 witness. -/
theorem c9_total_witness :
    load_data (.error .httpError) = none ∧
    load_position_data (.error .httpError) = none ∧
    load_data (.ok (⟨[]⟩ : DataFrame)) = none ∧
    load_position_data (.ok (⟨[]⟩ : DataFrame)) = none :=
  ⟨(c9_total .httpError ⟨[]⟩).1, (c9_total .httpError ⟨[]⟩).2.1,
   (c9_total .httpError ⟨[]⟩).2.2.1 (by rfl),
   (c9_total .httpError ⟨[]⟩).2.2.2.1 (by rfl)⟩

/-- C7, confirmed.  For every non-empty processed equity series (a frame
holding the equity column and its derived drawdown column), the metrics
block succeeds and reports: current equity and current drawdown equal to
the last record of each column, max/min equity attained on and bounding the
whole equity column, and max drawdown equal to the minimum (most negative)
drawdown value, attained on and bounding the whole drawdown column. -/
theorem c7_summary (df : DataFrame) (eq : List ℚ)
    (heq : lookupCol df "账户总净值" = some (eq.map Cell.q))
    (hdd : lookupCol df "drawdown" = some ((calculate_drawdown eq).map Cell.q))
    (hne : eq ≠ []) :
    ∃ s : Summary, metricsBlock df = .ok s ∧
      eq.getLast? = some s.current_capital ∧
      (calculate_drawdown eq).getLast? = some s.current_dd ∧
      s.max_capital ∈ eq ∧ (∀ v ∈ eq, v ≤ s.max_capital) ∧
      s.min_capital ∈ eq ∧ (∀ v ∈ eq, s.min_capital ≤ v) ∧
      s.max_dd ∈ calculate_drawdown eq ∧
      (∀ v ∈ calculate_drawdown eq, s.max_dd ≤ v) := by
  rcases eq with _ | ⟨a, as⟩
  · exact absurd rfl hne
  have hlen : (calculate_drawdown (a :: as)).length = as.length + 1 := by
    simp [calculate_drawdown_length]
  rcases hdc : calculate_drawdown (a :: as) with _ | ⟨b, bs⟩
  · rw [hdc] at hlen; simp at hlen
  rw [hdc] at hdd
  have hm : metricsBlock df
      = .ok ⟨(a :: as).getLast (by simp), as.foldl max a, as.foldl min a,
             (b :: bs).getLast (by simp), bs.foldl min b⟩ := by
    simp only [metricsBlock, heq, hdd, colQ_map_q, bind, Except.bind, pure,
      Except.pure, iloc_last, seriesMax, seriesMin,
      List.getLast?_eq_getLast_of_ne_nil (l := a :: as) (by simp),
      List.getLast?_eq_getLast_of_ne_nil (l := b :: bs) (by simp),
      Option.getD_some]
  refine ⟨_, hm, ?_, ?_, ?_, ?_, ?_, ?_, ?_, ?_⟩
  · exact List.getLast?_eq_getLast_of_ne_nil (by simp)
  · exact List.getLast?_eq_getLast_of_ne_nil (by simp)
  · rcases foldl_max_mem as a with h | h
    · rw [h]; exact List.mem_cons_self a as
    · exact List.mem_cons_of_mem a h
  · intro v hv
    rcases List.mem_cons.mp hv with hv | hv
    · exact hv ▸ (le_foldl_max as a).1
    · exact (le_foldl_max as a).2 v hv
  · rcases foldl_min_mem as a with h | h
    · rw [h]; exact List.mem_cons_self a as
    · exact List.mem_cons_of_mem a h
  · intro v hv
    rcases List.mem_cons.mp hv with hv | hv
    · exact hv ▸ (foldl_min_le as a).1
    · exact (foldl_min_le as a).2 v hv
  · rcases foldl_min_mem bs b with h | h
    · rw [h]; exact List.mem_cons_self b bs
    · exact List.mem_cons_of_mem b h
  · intro v hv
    rcases List.mem_cons.mp hv with hv | hv
    · exact hv ▸ (foldl_min_le bs b).1
    · exact (foldl_min_le bs b).2 v hv

/-- C7 witness. -/
theorem c7_summary_witness :
    ∃ s : Summary, metricsBlock ⟨[("账户总净值",
        [Cell.q 100, Cell.q 110, Cell.q 90]),
        ("drawdown", (calculate_drawdown [100, 110, 90]).map Cell.q)]⟩
      = .ok s ∧
      [(100 : ℚ), 110, 90].getLast? = some s.current_capital ∧
      (calculate_drawdown [100, 110, 90]).getLast? = some s.current_dd ∧
      s.max_capital ∈ [(100 : ℚ), 110, 90] ∧
      (∀ v ∈ [(100 : ℚ), 110, 90], v ≤ s.max_capital) ∧
      s.min_capital ∈ [(100 : ℚ), 110, 90] ∧
      (∀ v ∈ [(100 : ℚ), 110, 90], s.min_capital ≤ v) ∧
      s.max_dd ∈ calculate_drawdown [100, 110, 90] ∧
      (∀ v ∈ calculate_drawdown [100, 110, 90], s.max_dd ≤ v) :=
  c7_summary ⟨[("账户总净值", [Cell.q 100, Cell.q 110, Cell.q 90]),
      ("drawdown", (calculate_drawdown [100, 110, 90]).map Cell.q)]⟩
    [100, 110, 90]
    (by simp [lookupCol, List.find?]) (by simp [lookupCol, List.find?])
    (by simp)

end QuantData
